import Mathlib

/-!
Verification of the insider-trade mirror pipeline of this repository.

The development shallowly embeds the Python source:
dictionaries become association lists over an inductive `PyVal` type,
floats become exact rationals (`ℚ`) compared with the same operators the
code uses, and the stateful trading agent becomes explicit state passing
over a `TradingState` record.  `validate_data` and the CLI dispatch are
embedded from `src/insider_mirror/agents/data_agent.py` and
`src/insider_mirror/cli.py`; the trading agent, reporting agent and
cycle orchestrator are absent from the source tree (only their tests
ship), so those operations are modelled from the specification, as noted
on each definition.
-/

namespace InsiderMirror

/-- A scalar Python runtime value, the field shapes the pipeline handles. -/
inductive PyVal where
  | vStr (s : String)
  | vInt (n : Int)
  | vFloat (q : ℚ)
  | vBool (b : Bool)
  | vNone
  deriving DecidableEq

/-- A Python dict with string keys, as an association list. -/
abbrev PyDict := List (String × PyVal)

/-- An element of the input list handed to the validator: a dict record or
any non-dict value (which the loop drops). -/
inductive PyItem where
  | dict (d : PyDict)
  | scalar (v : PyVal)
  deriving DecidableEq

/-- A top-level Python value handed to `validate_data`. -/
inductive PyData where
  | vList (xs : List PyItem)
  | vDict (d : PyDict)
  | vScalar (v : PyVal)
  deriving DecidableEq

/-- Dict lookup: first binding of the key wins (Python dict keys are unique). -/
def lookupKey (k : String) : PyDict → Option PyVal
  | [] => none
  | (a, v) :: rest => if a = k then some v else lookupKey k rest

/-- Test `isinstance(x, str)` on an optional field value. -/
def isStrVal : Option PyVal → Bool
  | some (.vStr _) => true
  | _ => false

/-- Test `isinstance(x, (int, float))`; a Python `bool` is an `int`. -/
def isNumVal : Option PyVal → Bool
  | some (.vInt _) => true
  | some (.vFloat _) => true
  | some (.vBool _) => true
  | _ => false

/-- Test `isinstance(x, float)`. -/
def isFloatVal : Option PyVal → Bool
  | some (.vFloat _) => true
  | _ => false

/-- Numeric value of a field, as an exact rational. -/
def toRat : Option PyVal → ℚ
  | some (.vInt n) => (n : ℚ)
  | some (.vFloat q) => q
  | some (.vBool b) => if b then 1 else 0
  | _ => 0

/-- String value of a field. -/
def toStr : Option PyVal → String
  | some (.vStr s) => s
  | _ => ""

/-- Decimal digit test on a character. -/
def isDigitCh (c : Char) : Bool := decide ('0' ≤ c) && decide (c ≤ '9')

/-- Value of a decimal digit character. -/
def digitVal (c : Char) : Nat := c.toNat - 48

/-- Read exactly two digits. -/
def read2 : List Char → Option (Nat × List Char)
  | a :: b :: rest =>
    if isDigitCh a && isDigitCh b then some (10 * digitVal a + digitVal b, rest) else none
  | _ => none

/-- Read exactly four digits. -/
def read4 : List Char → Option (Nat × List Char)
  | a :: b :: c :: d :: rest =>
    if isDigitCh a && isDigitCh b && isDigitCh c && isDigitCh d then
      some (1000 * digitVal a + 100 * digitVal b + 10 * digitVal c + digitVal d, rest)
    else none
  | _ => none

/-- Consume one expected character. -/
def expectCh (ch : Char) : List Char → Option (List Char)
  | c :: rest => if c = ch then some rest else none
  | [] => none

/-- Gregorian leap-year rule. -/
def isLeapYear (y : Nat) : Bool :=
  decide ((y % 4 = 0 ∧ y % 100 ≠ 0) ∨ y % 400 = 0)

/-- Days in a month of a given year. -/
def daysInMonth (y m : Nat) : Nat :=
  if m = 2 then (if isLeapYear y then 29 else 28)
  else if m = 4 ∨ m = 6 ∨ m = 9 ∨ m = 11 then 30
  else 31

/-- Parse a `YYYY-MM-DD` prefix with calendar range checks; return the rest. -/
def parseDatePart (cs : List Char) : Option (List Char) := do
  let (y, r1) ← read4 cs
  let r2 ← expectCh '-' r1
  let (m, r3) ← read2 r2
  let r4 ← expectCh '-' r3
  let (d, r5) ← read2 r4
  if 1 ≤ m ∧ m ≤ 12 ∧ 1 ≤ d ∧ d ≤ daysInMonth y m then some r5 else none

/-- Drop a leading run of digits. -/
def dropDigits : List Char → List Char
  | c :: rest => if isDigitCh c then dropDigits rest else c :: rest
  | [] => []

/-- Consume an optional fractional-seconds part `.d+`. -/
def parseFrac : List Char → Option (List Char)
  | '.' :: rest =>
    match rest with
    | c :: _ => if isDigitCh c then some (dropDigits rest) else none
    | [] => none
  | cs => some cs

/-- Parse an optional seconds part `:SS[.d+]`; absent seconds read as zero. -/
def parseSeconds : List Char → Option (Nat × List Char)
  | ':' :: rest => do
    let (s, r) ← read2 rest
    let r2 ← parseFrac r
    some (s, r2)
  | cs => some (0, cs)

/-- Parse an `HH:MM[:SS[.d+]]` prefix with range checks; return the rest. -/
def parseTimePart (cs : List Char) : Option (List Char) := do
  let (h, r1) ← read2 cs
  let r2 ← expectCh ':' r1
  let (mi, r3) ← read2 r2
  let (se, r4) ← parseSeconds r3
  if h ≤ 23 ∧ mi ≤ 59 ∧ se ≤ 59 then some r4 else none

/-- Accept an empty tail or a UTC-offset tail `±HH:MM` ending the string. -/
def offsetTailOk : List Char → Bool
  | [] => true
  | sign :: rest =>
    if sign = '+' ∨ sign = '-' then
      match (do
        let (oh, r1) ← read2 rest
        let r2 ← expectCh ':' r1
        let (om, r3) ← read2 r2
        if oh ≤ 23 ∧ om ≤ 59 then some r3 else none : Option (List Char)) with
      | some [] => true
      | _ => false
    else false

/-- Model of `datetime.fromisoformat` succeeding, on the ISO-8601 subset the
pipeline exercises: `YYYY-MM-DD`, optionally `T` (or space) and
`HH:MM[:SS[.d+]]`, optionally a `±HH:MM` offset. -/
def fromisoformatOk (cs : List Char) : Bool :=
  match parseDatePart cs with
  | none => false
  | some rest =>
    match rest with
    | [] => true
    | t :: rest2 =>
      if t = 'T' ∨ t = ' ' then
        match parseTimePart rest2 with
        | none => false
        | some rest3 => offsetTailOk rest3
      else false

/-- The character list of `s.replace('Z', '+00:00')` from `validate_data`. -/
def replaceZ (s : String) : List Char :=
  (s.toList.map (fun c => if c = 'Z' then ['+', '0', '0', ':', '0', '0'] else [c])).flatten

/-- The filing-date check of `validate_data`:
`datetime.fromisoformat(filing_date.replace('Z', '+00:00'))` raises no error. -/
def filingDateOk (s : String) : Bool := fromisoformatOk (replaceZ s)

/-- The `required_fields` presence-and-type check of `validate_data`
(`data_agent.py` lines 160–177). -/
def hasRequiredFields (d : PyDict) : Bool :=
  isStrVal (lookupKey "symbol" d) && isStrVal (lookupKey "transaction_type" d) &&
  isNumVal (lookupKey "shares" d) && isFloatVal (lookupKey "price" d) &&
  isFloatVal (lookupKey "value" d) && isStrVal (lookupKey "filing_date" d)

/-- The record's `shares` field as a rational. -/
def sharesQ (d : PyDict) : ℚ := toRat (lookupKey "shares" d)

/-- The record's `price` field as a rational. -/
def priceQ (d : PyDict) : ℚ := toRat (lookupKey "price" d)

/-- The record's `value` field as a rational. -/
def valueQ (d : PyDict) : ℚ := toRat (lookupKey "value" d)

/-- The record's `filing_date` field as a string. -/
def filingDateStr (d : PyDict) : String := toStr (lookupKey "filing_date" d)

/-- The record loop of `validate_data` (`data_agent.py` lines 169–196):
each guard failure is a `continue`; survivors are appended to the
accumulator; a non-dict element raises inside the `try` and is skipped. -/
def validateLoop : List PyItem → List PyDict → List PyDict
  | [], acc => acc
  | r :: rest, acc =>
    match r with
    | .dict d =>
      if hasRequiredFields d = false then validateLoop rest acc
      else if sharesQ d ≤ 0 ∨ priceQ d ≤ 0 then validateLoop rest acc
      else if valueQ d ≠ sharesQ d * priceQ d then validateLoop rest acc
      else if filingDateOk (filingDateStr d) = false then validateLoop rest acc
      else validateLoop rest (acc ++ [d])
    | _ => validateLoop rest acc

/-- Embedding of `DataAgent.validate_data` (`data_agent.py` lines 154–198): a non-list
input yields `[]`; otherwise the record loop filters the list. -/
def validate_data : PyData → List PyDict
  | .vList xs => validateLoop xs []
  | _ => []

/-- A well-formed record in the spec's sense, with the code's exact-equality
reading of value consistency: required fields present with the required
types, positive shares and price, `value = shares × price`, parseable
filing date. -/
def wellFormedRecord (d : PyDict) : Bool :=
  hasRequiredFields d && decide (0 < sharesQ d) && decide (0 < priceQ d) &&
  decide (valueQ d = sharesQ d * priceQ d) && filingDateOk (filingDateStr d)

/-- Keep function: a list element survives validation iff it is a dict whose
record is well formed. -/
def keepRecord : PyItem → Option PyDict
  | .dict d => if wellFormedRecord d then some d else none
  | _ => none

/-- A trade record dict in the field order the fixtures use. -/
def mkRecord (sym tt : String) (sh : PyVal) (pr v : ℚ) (fd : String) : PyDict :=
  [("symbol", .vStr sym), ("transaction_type", .vStr tt), ("shares", sh),
   ("price", .vFloat pr), ("value", .vFloat v), ("filing_date", .vStr fd)]

theorem hasRequiredFields_mk (sym tt fd : String) (n : Int) (pr v : ℚ) :
    hasRequiredFields (mkRecord sym tt (.vInt n) pr v fd) = true := rfl

theorem sharesQ_mk (sym tt fd : String) (n : Int) (pr v : ℚ) :
    sharesQ (mkRecord sym tt (.vInt n) pr v fd) = (n : ℚ) := rfl

theorem priceQ_mk (sym tt fd : String) (sh : PyVal) (pr v : ℚ) :
    priceQ (mkRecord sym tt sh pr v fd) = pr := rfl

theorem valueQ_mk (sym tt fd : String) (sh : PyVal) (pr v : ℚ) :
    valueQ (mkRecord sym tt sh pr v fd) = v := rfl

theorem filingDateStr_mk (sym tt fd : String) (sh : PyVal) (pr v : ℚ) :
    filingDateStr (mkRecord sym tt sh pr v fd) = fd := rfl

/-- Unfolding of `wellFormedRecord` into its five spec conditions. -/
theorem wellFormedRecord_iff (d : PyDict) :
    wellFormedRecord d = true ↔
      hasRequiredFields d = true ∧ 0 < sharesQ d ∧ 0 < priceQ d ∧
      valueQ d = sharesQ d * priceQ d ∧ filingDateOk (filingDateStr d) = true := by
  simp [wellFormedRecord, Bool.and_eq_true, decide_eq_true_eq, and_assoc]

/-- One dict step of the record loop: the four `continue` guards decide
exactly well-formedness. -/
theorem validateLoop_cons_dict (d : PyDict) (rest : List PyItem) (acc : List PyDict) :
    validateLoop (.dict d :: rest) acc =
      if wellFormedRecord d = true then validateLoop rest (acc ++ [d])
      else validateLoop rest acc := by
  simp only [validateLoop]
  by_cases h1 : hasRequiredFields d = true
  · rw [if_neg (by simp [h1])]
    by_cases h2 : sharesQ d ≤ 0 ∨ priceQ d ≤ 0
    · rw [if_pos h2]
      have hw : wellFormedRecord d = false := by
        rcases h2 with h | h
        · have hs : decide (0 < sharesQ d) = false := decide_eq_false (not_lt.mpr h)
          simp [wellFormedRecord, hs]
        · have hp : decide (0 < priceQ d) = false := decide_eq_false (not_lt.mpr h)
          simp [wellFormedRecord, hp]
      rw [hw, if_neg (by simp)]
    · rw [if_neg h2]
      push_neg at h2
      by_cases h3 : valueQ d = sharesQ d * priceQ d
      · rw [if_neg (not_not_intro h3)]
        by_cases h4 : filingDateOk (filingDateStr d) = true
        · rw [if_neg (by simp [h4])]
          have hw : wellFormedRecord d = true :=
            (wellFormedRecord_iff d).mpr ⟨h1, h2.1, h2.2, h3, h4⟩
          rw [hw, if_pos rfl]
        · simp only [Bool.not_eq_true] at h4
          rw [if_pos h4]
          have hw : wellFormedRecord d = false := by simp [wellFormedRecord, h4]
          rw [hw, if_neg (by simp)]
      · rw [if_pos h3]
        have hw : wellFormedRecord d = false := by
          have hv : decide (valueQ d = sharesQ d * priceQ d) = false := decide_eq_false h3
          simp [wellFormedRecord, hv]
        rw [hw, if_neg (by simp)]
  · simp only [Bool.not_eq_true] at h1
    rw [if_pos h1]
    have hw : wellFormedRecord d = false := by simp [wellFormedRecord, h1]
    rw [hw, if_neg (by simp)]

/-- The record loop is the spec's filter: the accumulator is extended with
exactly the well-formed records, in input order. -/
theorem validateLoop_eq (xs : List PyItem) :
    ∀ acc, validateLoop xs acc = acc ++ xs.filterMap keepRecord := by
  induction xs with
  | nil => intro acc; simp [validateLoop]
  | cons r rest ih =>
    intro acc
    cases r with
    | dict d =>
      rw [validateLoop_cons_dict]
      by_cases hw : wellFormedRecord d = true
      · rw [if_pos hw, ih]
        simp [keepRecord, hw]
      · rw [if_neg hw, ih]
        simp only [Bool.not_eq_true] at hw
        simp [keepRecord, hw]
    | scalar v =>
      simp only [validateLoop]
      rw [ih]
      simp [keepRecord]

/-- Discriminator for list-shaped validator input. -/
def isListData : PyData → Bool
  | .vList _ => true
  | _ => false

/-- An otherwise perfectly well-formed record whose `value` misses
`shares × price` by one billionth: `1000 × 150.0` against
`150000.000000001`. -/
def epsRecord : PyDict :=
  mkRecord "AAPL" "PURCHASE" (.vInt 1000) 150 (150000 + 1 / 1000000000)
    "2024-01-25T00:00:00Z"

/-- Claim C5: `validate_data` on a list returns exactly the well-formed
records (required fields with the required types, positive shares and
price, value equal to shares × price, parseable filing date), unchanged
and in input order, silently dropping every other element, and maps the
empty list to the empty list. -/
theorem c5_validate_returns_exactly_wellformed :
    (∀ xs : List PyItem, validate_data (.vList xs) = xs.filterMap keepRecord) ∧
    validate_data (.vList []) = [] := by
  refine ⟨fun xs => ?_, rfl⟩
  simp only [validate_data]
  rw [validateLoop_eq]
  simp

/-- Claim C1 counterexample: `epsRecord` has every field present and typed,
positive shares and price, and a parseable filing date; its `value`
differs from `shares × price` by only `1/1000000000` — within any small
tolerance — yet `validate_data` excludes it, because the code compares
`value != shares * price` exactly. -/
theorem c1_counterexample :
    hasRequiredFields epsRecord = true ∧
    0 < sharesQ epsRecord ∧ 0 < priceQ epsRecord ∧
    filingDateOk (filingDateStr epsRecord) = true ∧
    valueQ epsRecord - sharesQ epsRecord * priceQ epsRecord = 1 / 1000000000 ∧
    validate_data (.vList [.dict epsRecord]) = [] := by
  have hv : valueQ epsRecord - sharesQ epsRecord * priceQ epsRecord = 1 / 1000000000 := by
    simp only [epsRecord, valueQ_mk, sharesQ_mk, priceQ_mk]
    norm_num
  refine ⟨rfl, ?_, ?_, rfl, hv, ?_⟩
  · simp only [epsRecord, sharesQ_mk]; norm_num
  · simp only [epsRecord, priceQ_mk]; norm_num
  · have hne : valueQ epsRecord ≠ sharesQ epsRecord * priceQ epsRecord := by
      rw [sub_eq_iff_eq_add] at hv
      rw [hv]
      intro h
      nlinarith [h]
    have hb : decide (valueQ epsRecord = sharesQ epsRecord * priceQ epsRecord) = false :=
      decide_eq_false hne
    have hw : wellFormedRecord epsRecord = false := by simp [wellFormedRecord, hb]
    simp only [validate_data]
    rw [validateLoop_cons_dict, hw]
    simp [validateLoop]

/-- Claim C1 (amended): `validate_data` applies no tolerance at all — an
otherwise well-formed record is kept exactly when its `value` equals
`shares × price` with exact rational equality, and excluded on any
nonzero difference however small. -/
theorem c1_exact_equality (sym tt fd : String) (n : Int) (pr v : ℚ)
    (hn : 0 < n) (hp : 0 < pr) (hd : filingDateOk fd = true) :
    validate_data (.vList [.dict (mkRecord sym tt (.vInt n) pr v fd)]) =
      (if v = (n : ℚ) * pr then [mkRecord sym tt (.vInt n) pr v fd] else []) := by
  simp only [validate_data]
  rw [validateLoop_cons_dict]
  by_cases hv : v = (n : ℚ) * pr
  · have hw : wellFormedRecord (mkRecord sym tt (.vInt n) pr v fd) = true := by
      refine (wellFormedRecord_iff _).mpr ⟨hasRequiredFields_mk sym tt fd n pr v, ?_, ?_, ?_, ?_⟩
      · rw [sharesQ_mk]; exact_mod_cast hn
      · rw [priceQ_mk]; exact hp
      · rw [valueQ_mk, sharesQ_mk, priceQ_mk]; exact hv
      · rw [filingDateStr_mk]; exact hd
    rw [hw, if_pos rfl, if_pos hv]
    simp [validateLoop]
  · have hb : decide (valueQ (mkRecord sym tt (.vInt n) pr v fd) =
        sharesQ (mkRecord sym tt (.vInt n) pr v fd) *
        priceQ (mkRecord sym tt (.vInt n) pr v fd)) = false := by
      refine decide_eq_false ?_
      rw [valueQ_mk, sharesQ_mk, priceQ_mk]
      exact hv
    have hw : wellFormedRecord (mkRecord sym tt (.vInt n) pr v fd) = false := by
      simp [wellFormedRecord, hb]
    rw [hw, if_neg (by simp), if_neg hv]
    simp [validateLoop]

/-- Witness for the amended claim C1 at the fixture record
`1000 shares × $150.0 = $150000.0`. -/
theorem c1_witness :
    validate_data (.vList [.dict (mkRecord "AAPL" "PURCHASE" (.vInt 1000) 150 150000
        "2024-01-25T00:00:00Z")]) =
      [mkRecord "AAPL" "PURCHASE" (.vInt 1000) 150 150000 "2024-01-25T00:00:00Z"] := by
  have h := c1_exact_equality "AAPL" "PURCHASE" "2024-01-25T00:00:00Z" 1000 150 150000
    (by norm_num) (by norm_num) rfl
  rw [if_pos (by norm_num)] at h
  exact h

/-- Claim C10: a non-list input (such as Python `None`, a dict, or a
string) makes `validate_data` return the empty list instead of raising. -/
theorem c10_nonlist_returns_empty (v : PyData) (h : isListData v = false) :
    validate_data v = [] := by
  cases v with
  | vList xs => simp [isListData] at h
  | vDict d => rfl
  | vScalar s => rfl

/-- Witness for claim C10 at `None`, at a dict, and at a string. -/
theorem c10_witness :
    validate_data (.vScalar .vNone) = [] ∧
    validate_data (.vDict [("symbol", .vStr "AAPL")]) = [] ∧
    validate_data (.vScalar (.vStr "oops")) = [] :=
  ⟨c10_nonlist_returns_empty (.vScalar .vNone) rfl,
   c10_nonlist_returns_empty (.vDict [("symbol", .vStr "AAPL")]) rfl,
   c10_nonlist_returns_empty (.vScalar (.vStr "oops")) rfl⟩

/-- The `TransactionType` enum {Purchase, Sale}. -/
inductive TransactionType where
  | purchase
  | sale
  deriving DecidableEq

/-- A trade signal as the trading agent consumes it: symbol, shares, price
and transaction type. -/
structure Trade where
  symbol : String
  shares : ℚ
  price : ℚ
  tType : TransactionType
  deriving DecidableEq

/-- Trade notional value, shares × price. -/
def Trade.notional (t : Trade) : ℚ := t.shares * t.price

/-- Modelled from the spec: the immutable `RiskLimits` configuration
(`max_position_pct_of_portfolio`, `max_daily_trades`,
`max_symbol_concentration_pct`); the trading agent itself is absent from
the source tree. -/
structure RiskLimits where
  max_position_pct : ℚ
  max_daily_trades : ℕ
  max_symbol_concentration_pct : ℚ
  deriving DecidableEq

/-- A per-symbol position: shares held and accumulated value. -/
structure Position where
  shares : ℚ
  value : ℚ
  deriving DecidableEq

/-- Modelled from the spec: the trading agent's mutable state — the
positions map, the daily executed-trade list and the daily P&L; the
trading agent itself is absent from the source tree. -/
structure TradingState where
  positions : List (String × Position)
  daily_trades : List Trade
  daily_pnl : ℚ
  deriving DecidableEq

/-- Position-map lookup by symbol. -/
def lookupPos (sym : String) : List (String × Position) → Option Position
  | [] => none
  | (a, p) :: rest => if a = sym then some p else lookupPos sym rest

/-- Position-map update by symbol: replace the binding, or append it. -/
def setPos (sym : String) (p : Position) : List (String × Position) →
    List (String × Position)
  | [] => [(sym, p)]
  | (a, q) :: rest => if a = sym then (sym, p) :: rest else (a, q) :: setPos sym p rest

/-- Position-map removal by symbol. -/
def removePos (sym : String) : List (String × Position) → List (String × Position)
  | [] => []
  | (a, q) :: rest => if a = sym then removePos sym rest else (a, q) :: removePos sym rest

/-- Value of the existing position in a symbol, zero when absent. -/
def posValue (st : TradingState) (sym : String) : ℚ :=
  match lookupPos sym st.positions with
  | some p => p.value
  | none => 0

/-- Modelled from the spec: `check_risk_limits(trade, portfolio_value)` of
the absent trading agent — evaluates, in fixed order with the first
violation winning: position size, then daily trade count, then symbol
concentration; returns `(allowed, reason)`. -/
def check_risk_limits (L : RiskLimits) (st : TradingState) (t : Trade) (pv : ℚ) :
    Bool × Option String :=
  if ¬ (t.notional / pv ≤ L.max_position_pct) then
    (false, some "Position size exceeds limit")
  else if ¬ (st.daily_trades.length < L.max_daily_trades) then
    (false, some "Daily trade limit reached")
  else if ¬ ((posValue st t.symbol + t.notional) / pv ≤ L.max_symbol_concentration_pct) then
    (false, some "Symbol concentration exceeds limit")
  else
    (true, none)

/-- Modelled from the spec: `update_position(trade)` of the absent trading
agent — a purchase adds shares and notional to the symbol's position,
creating it when absent; a sale subtracts, and a position whose shares
reach exactly zero is removed entirely. -/
def update_position (st : TradingState) (t : Trade) : TradingState :=
  let cur := (lookupPos t.symbol st.positions).getD ⟨0, 0⟩
  match t.tType with
  | .purchase =>
    { st with positions :=
        setPos t.symbol ⟨cur.shares + t.shares, cur.value + t.notional⟩ st.positions }
  | .sale =>
    if cur.shares - t.shares = 0 then
      { st with positions := removePos t.symbol st.positions }
    else
      { st with positions :=
          setPos t.symbol ⟨cur.shares - t.shares, cur.value - t.notional⟩ st.positions }

/-- Status of an execution record. -/
inductive ExecStatus where
  | executed
  | rejected
  deriving DecidableEq

/-- An `ExecutionRecord`: the trade, the outcome, and a reason when rejected. -/
structure ExecutionRecord where
  trade : Trade
  status : ExecStatus
  reason : Option String
  deriving DecidableEq

/-- Modelled from the spec: `execute_trade(trade, portfolio_value)` of the
absent trading agent — on a passing risk check it updates the position
and appends to the daily trade list, returning an executed record; on a
failing check it returns a rejected record carrying the reason and
leaves the state untouched. -/
def execute_trade (L : RiskLimits) (st : TradingState) (t : Trade) (pv : ℚ) :
    ExecutionRecord × TradingState :=
  let chk := check_risk_limits L st t pv
  if chk.1 then
    let st2 := update_position st t
    (⟨t, .executed, none⟩, { st2 with daily_trades := st2.daily_trades ++ [t] })
  else
    (⟨t, .rejected, chk.2⟩, st)

theorem lookupPos_setPos_self (sym : String) (p : Position) :
    ∀ l, lookupPos sym (setPos sym p l) = some p := by
  intro l
  induction l with
  | nil => simp [setPos, lookupPos]
  | cons hd tl ih =>
    obtain ⟨a, q⟩ := hd
    by_cases h : a = sym
    · simp [setPos, lookupPos, h]
    · simp [setPos, lookupPos, h, ih]

theorem lookupPos_removePos_self (sym : String) :
    ∀ l, lookupPos sym (removePos sym l) = none := by
  intro l
  induction l with
  | nil => simp [removePos, lookupPos]
  | cons hd tl ih =>
    obtain ⟨a, q⟩ := hd
    by_cases h : a = sym
    · simp [removePos, h, ih]
    · simp [removePos, lookupPos, h, ih]

/-- The configured limits of the worked examples: 5% position size, 10
daily trades, 25% symbol concentration. -/
def limits5 : RiskLimits := ⟨5 / 100, 10, 25 / 100⟩

/-- A fresh trading state: no positions, no daily trades, zero P&L. -/
def st0 : TradingState := ⟨[], [], 0⟩

/-- The worked-example trade of 30 shares at $150 ($4500 notional). -/
def trade30 : Trade := ⟨"AAPL", 30, 150, .purchase⟩

/-- The worked-example trade of 100 shares at $150 ($15000 notional). -/
def trade100 : Trade := ⟨"AAPL", 100, 150, .purchase⟩

/-- A state whose daily trade list already holds 10 executed trades. -/
def stFull : TradingState := ⟨[], List.replicate 10 ⟨"X", 1, 1, .purchase⟩, 0⟩

/-- Claim C2: `check_risk_limits` evaluates position size, then daily trade
count, then symbol concentration, the first violated limit fixing the
reason; and with a $100000 portfolio and a 5% position limit, 30 shares
at $150 pass while 100 shares at $150 are rejected for position size. -/
theorem c2_check_order_and_examples :
    (∀ (L : RiskLimits) (st : TradingState) (t : Trade) (pv : ℚ),
      ¬ (t.notional / pv ≤ L.max_position_pct) →
      check_risk_limits L st t pv = (false, some "Position size exceeds limit")) ∧
    (∀ (L : RiskLimits) (st : TradingState) (t : Trade) (pv : ℚ),
      t.notional / pv ≤ L.max_position_pct →
      L.max_daily_trades ≤ st.daily_trades.length →
      check_risk_limits L st t pv = (false, some "Daily trade limit reached")) ∧
    (∀ (L : RiskLimits) (st : TradingState) (t : Trade) (pv : ℚ),
      t.notional / pv ≤ L.max_position_pct →
      st.daily_trades.length < L.max_daily_trades →
      ¬ ((posValue st t.symbol + t.notional) / pv ≤ L.max_symbol_concentration_pct) →
      check_risk_limits L st t pv = (false, some "Symbol concentration exceeds limit")) ∧
    check_risk_limits limits5 st0 trade30 100000 = (true, none) ∧
    check_risk_limits limits5 st0 trade100 100000 =
      (false, some "Position size exceeds limit") := by
  refine ⟨?_, ?_, ?_, ?_, ?_⟩
  · intro L st t pv h1
    simp [check_risk_limits, h1]
  · intro L st t pv h1 h2
    simp [check_risk_limits, h1, Nat.not_lt.mpr h2]
  · intro L st t pv h1 h2 h3
    simp [check_risk_limits, h1, h2, h3]
  · simp only [check_risk_limits]
    norm_num [Trade.notional, trade30, limits5, st0, posValue, lookupPos]
  · simp only [check_risk_limits]
    norm_num [Trade.notional, trade100, limits5]

/-- Witness for claim C2: each ordering conjunct instantiated at a
concrete violating input. -/
theorem c2_witness :
    check_risk_limits limits5 st0 trade100 100000 =
      (false, some "Position size exceeds limit") ∧
    check_risk_limits limits5 stFull trade30 100000 =
      (false, some "Daily trade limit reached") ∧
    check_risk_limits limits5 ⟨[("AAPL", ⟨100, 24000⟩)], [], 0⟩ trade30 100000 =
      (false, some "Symbol concentration exceeds limit") := by
  refine ⟨?_, ?_, ?_⟩
  · exact c2_check_order_and_examples.1 limits5 st0 trade100 100000
      (by norm_num [Trade.notional, trade100, limits5])
  · exact c2_check_order_and_examples.2.1 limits5 stFull trade30 100000
      (by norm_num [Trade.notional, trade30, limits5])
      (by norm_num [stFull, limits5])
  · exact c2_check_order_and_examples.2.2.1 limits5 ⟨[("AAPL", ⟨100, 24000⟩)], [], 0⟩
      trade30 100000
      (by norm_num [Trade.notional, trade30, limits5])
      (by norm_num [limits5])
      (by norm_num [Trade.notional, trade30, limits5, posValue, lookupPos])

/-- Claim C3: when the risk check fails, `execute_trade` returns a rejected
record that carries a reason, and the state — positions, daily trade
list, daily P&L — is returned exactly as it was. -/
theorem c3_rejection_is_pure (L : RiskLimits) (st : TradingState) (t : Trade) (pv : ℚ)
    (h : (check_risk_limits L st t pv).1 = false) :
    (execute_trade L st t pv).1.status = .rejected ∧
    (execute_trade L st t pv).1.reason ≠ none ∧
    (execute_trade L st t pv).2 = st := by
  have hres : execute_trade L st t pv = (⟨t, .rejected, (check_risk_limits L st t pv).2⟩, st) := by
    simp [execute_trade, h]
  rw [hres]
  refine ⟨rfl, ?_, rfl⟩
  by_cases h1 : ¬ (t.notional / pv ≤ L.max_position_pct)
  · simp [check_risk_limits, h1]
  · by_cases h2 : ¬ (st.daily_trades.length < L.max_daily_trades)
    · simp [check_risk_limits, h1, h2]
    · by_cases h3 : ¬ ((posValue st t.symbol + t.notional) / pv ≤
          L.max_symbol_concentration_pct)
      · simp [check_risk_limits, h1, h2, h3]
      · exfalso
        have : (check_risk_limits L st t pv).1 = true := by
          simp [check_risk_limits, h1, h2, h3]
        rw [h] at this
        exact Bool.false_ne_true this

/-- Witness for claim C3 at a concrete rejected trade: the daily limit is
full, so the $4500 trade is rejected and the state is untouched. -/
theorem c3_witness :
    (execute_trade limits5 stFull trade30 100000).1.status = .rejected ∧
    (execute_trade limits5 stFull trade30 100000).1.reason ≠ none ∧
    (execute_trade limits5 stFull trade30 100000).2 = stFull := by
  refine c3_rejection_is_pure limits5 stFull trade30 100000 ?_
  have h : check_risk_limits limits5 stFull trade30 100000 =
      (false, some "Daily trade limit reached") := by
    simp only [check_risk_limits]
    norm_num [Trade.notional, trade30, limits5, stFull]
  rw [h]

/-- Claim C4: buying a quantity at a price and then selling the same
quantity at the same price, starting from a state without that symbol,
leaves the positions map with no entry for the symbol at all. -/
theorem c4_full_sale_removes_position (st : TradingState) (sym : String) (q p : ℚ)
    (h : lookupPos sym st.positions = none) :
    lookupPos sym
      ((update_position (update_position st ⟨sym, q, p, .purchase⟩)
          ⟨sym, q, p, .sale⟩).positions) = none := by
  have hbuy : update_position st ⟨sym, q, p, .purchase⟩ =
      { st with positions := setPos sym ⟨q, q * p⟩ st.positions } := by
    simp [update_position, h, Trade.notional]
  rw [hbuy]
  simp [update_position, lookupPos_setPos_self, Trade.notional, lookupPos_removePos_self]

/-- Witness for claim C4: buy 100 shares of AAPL at $150 from a fresh
state, sell them again, and AAPL is gone from the positions map. -/
theorem c4_witness :
    lookupPos "AAPL"
      ((update_position (update_position st0 ⟨"AAPL", 100, 150, .purchase⟩)
          ⟨"AAPL", 100, 150, .sale⟩).positions) = none :=
  c4_full_sale_removes_position st0 "AAPL" 100 150 rfl

/-- Claim C6 counterexample: with the daily-trade count already at its
maximum of 10, an oversized 100-share trade at $150 is rejected for
position size, not with the daily-limit reason — the daily-limit reason
does not apply regardless of trade size, because position size is
checked first. -/
theorem c6_counterexample :
    stFull.daily_trades.length = limits5.max_daily_trades ∧
    check_risk_limits limits5 stFull trade100 100000 =
      (false, some "Position size exceeds limit") ∧
    ("Position size exceeds limit" : String) ≠ "Daily trade limit reached" := by
  refine ⟨by norm_num [stFull, limits5], ?_, by decide⟩
  simp only [check_risk_limits]
  norm_num [Trade.notional, trade100, limits5]

/-- Claim C6 (amended): once the executed-trade count has reached
`max_daily_trades`, every further trade is rejected regardless of size,
and the reason is the daily-limit reason whenever the trade passes the
position-size check that precedes it. -/
theorem c6_daily_limit_rejects (L : RiskLimits) (st : TradingState) (t : Trade) (pv : ℚ)
    (h : L.max_daily_trades ≤ st.daily_trades.length) :
    (check_risk_limits L st t pv).1 = false ∧
    (t.notional / pv ≤ L.max_position_pct →
      check_risk_limits L st t pv = (false, some "Daily trade limit reached")) := by
  constructor
  · by_cases h1 : ¬ (t.notional / pv ≤ L.max_position_pct)
    · simp [check_risk_limits, h1]
    · simp [check_risk_limits, h1, Nat.not_lt.mpr h]
  · intro h1
    simp [check_risk_limits, h1, Nat.not_lt.mpr h]

/-- Witness for the amended claim C6: the 11th call with the in-limit
$4500 trade is rejected with the daily-limit reason. -/
theorem c6_witness :
    (check_risk_limits limits5 stFull trade30 100000).1 = false ∧
    check_risk_limits limits5 stFull trade30 100000 =
      (false, some "Daily trade limit reached") := by
  have h := c6_daily_limit_rejects limits5 stFull trade30 100000
    (by norm_num [stFull, limits5])
  exact ⟨h.1, h.2 (by norm_num [Trade.notional, trade30, limits5])⟩

/-- Outcome of one pipeline stage: a payload or a structured error. -/
inductive StageResult (α : Type) where
  | success (val : α)
  | error (msg : String)

/-- Sequential risk-gated execution of a filtered batch, threading the
trading state trade by trade in list order. -/
def execute_batch (L : RiskLimits) (pv : ℚ) : List Trade → TradingState →
    List ExecutionRecord × TradingState
  | [], st => ([], st)
  | t :: ts, st =>
    let r1 := execute_trade L st t pv
    let r2 := execute_batch L pv ts r1.2
    (r1.1 :: r2.1, r2.2)

/-- Result record of one orchestrator cycle: status flag, error message,
per-stage counts, the crew's portfolio value, and the report rendered
over the executions (absent when the cycle errored). -/
structure CycleOutcome where
  ok : Bool
  errorMsg : Option String
  trades_fetched : ℕ
  trades_analyzed : ℕ
  trades_executed : ℕ
  portfolio_value : ℚ
  report : Option (List ExecutionRecord)
  deriving DecidableEq

/-- Modelled from the spec: `run_cycle` of the absent `InsiderMirrorCrew` —
sequences fetch → analyze → risk-gated execute → report; a fetch or
analysis error short-circuits to an error result without touching the
trading state, and a successful cycle reports the counts and the
executions; the spec does not make a cycle change the crew's own
portfolio value, so it is passed through. -/
def run_cycle (L : RiskLimits) (pv : ℚ) (st : TradingState)
    (fetched : StageResult (List PyDict))
    (analyzeFn : List PyDict → StageResult (List Trade)) :
    CycleOutcome × TradingState :=
  match fetched with
  | .error msg => (⟨false, some msg, 0, 0, 0, pv, none⟩, st)
  | .success recs =>
    match analyzeFn recs with
    | .error msg => (⟨false, some msg, recs.length, 0, 0, pv, none⟩, st)
    | .success filtered =>
      let r := execute_batch L pv filtered st
      (⟨true, none, recs.length, filtered.length, r.1.length, pv, some r.1⟩, r.2)

/-- Claim C7: a fetch error short-circuits `run_cycle` to an error result
(no later stage runs and the state is untouched, whatever the analysis
stage would do), while an analysis stage yielding zero significant
trades produces a success result with an empty report, zero executions,
and the portfolio value and trading state unchanged. -/
theorem c7_cycle_error_semantics :
    (∀ (L : RiskLimits) (pv : ℚ) (st : TradingState) (msg : String)
      (analyzeFn : List PyDict → StageResult (List Trade)),
      run_cycle L pv st (.error msg) analyzeFn =
        (⟨false, some msg, 0, 0, 0, pv, none⟩, st)) ∧
    (∀ (L : RiskLimits) (pv : ℚ) (st : TradingState) (recs : List PyDict)
      (analyzeFn : List PyDict → StageResult (List Trade)),
      analyzeFn recs = .success [] →
      run_cycle L pv st (.success recs) analyzeFn =
        (⟨true, none, recs.length, 0, 0, pv, some []⟩, st)) := by
  refine ⟨fun L pv st msg analyzeFn => rfl, fun L pv st recs analyzeFn h => ?_⟩
  simp [run_cycle, h, execute_batch]

/-- Witness for claim C7: an empty-analysis cycle over a fresh state is a
success with an empty report and the state unchanged. -/
theorem c7_witness :
    run_cycle limits5 100000 st0 (.success [])
        (fun _ => .success []) =
      (⟨true, none, 0, 0, 0, 100000, some []⟩, st0) :=
  c7_cycle_error_semantics.2 limits5 100000 st0 [] (fun _ => .success []) rfl

/-- Prefix sums from an accumulator. -/
def cumsumFrom (acc : ℚ) : List ℚ → List ℚ
  | [] => []
  | x :: xs => (acc + x) :: cumsumFrom (acc + x) xs

/-- The cumulative P&L series of a P&L list. -/
def cumsum (l : List ℚ) : List ℚ := cumsumFrom 0 l

/-- Running maxima continuing from a seed peak. -/
def runMaxFrom (m : ℚ) : List ℚ → List ℚ
  | [] => []
  | x :: xs => max m x :: runMaxFrom (max m x) xs

/-- Running maxima (cummax) of a series. -/
def runningMax : List ℚ → List ℚ
  | [] => []
  | x :: xs => runMaxFrom x (x :: xs)

/-- Modelled from the spec: the `max_drawdown` computation of the absent
reporting agent over a cumulative P&L series — subtract each cumulative
value from the running maximum and take the largest difference. -/
def maxDrawdownCum (l : List ℚ) : ℚ :=
  (List.zipWith (fun a b => a - b) (runningMax l) l).foldr max 0

/-- Modelled from the spec: the reported `max_drawdown` over a trade P&L
series — the running-maximum subtraction applied to the cumulative
P&L series. -/
def calculate_max_drawdown (pnls : List ℚ) : ℚ := maxDrawdownCum (cumsum pnls)

/-- All peak-to-trough declines of a series: `l i - l j` over every pair
of indices `i ≤ j`. -/
def declines : List ℚ → List ℚ
  | [] => []
  | x :: xs => (x :: xs).map (fun y => x - y) ++ declines xs

/-- The largest peak-to-trough decline (at least zero) of a series. -/
def maxDecline (l : List ℚ) : ℚ := (declines l).foldr max 0

theorem foldr_max_nonneg (l : List ℚ) : 0 ≤ l.foldr max 0 := by
  induction l with
  | nil => exact le_refl 0
  | cons x xs ih => exact le_trans ih (le_max_right x _)

theorem foldr_max_append (a b : List ℚ) :
    (a ++ b).foldr max 0 = max (a.foldr max 0) (b.foldr max 0) := by
  induction a with
  | nil => simp [max_eq_right (foldr_max_nonneg b)]
  | cons x xs ih => simp [ih, max_assoc]

theorem foldr_max_map_max (f g : ℚ → ℚ) (l : List ℚ) :
    (l.map (fun y => max (f y) (g y))).foldr max 0 =
      max ((l.map f).foldr max 0) ((l.map g).foldr max 0) := by
  induction l with
  | nil => simp
  | cons x xs ih =>
    simp only [List.map_cons, List.foldr_cons, ih]
    exact max_max_max_comm _ _ _ _

theorem zip_runMax_foldr (l : List ℚ) :
    ∀ m, (List.zipWith (fun a b => a - b) (runMaxFrom m l) l).foldr max 0 =
      max ((l.map (fun y => m - y)).foldr max 0) ((declines l).foldr max 0) := by
  induction l with
  | nil => intro m; simp [declines]
  | cons x xs ih =>
    intro m
    have hpt : (fun y => max m x - y) = fun y => max (m - y) (x - y) := by
      funext y
      exact (max_sub_sub_right m x y).symm
    simp only [runMaxFrom, List.zipWith_cons_cons, List.foldr_cons, ih (max m x),
      declines, List.map_cons, foldr_max_append, hpt, foldr_max_map_max]
    simp [max_assoc, max_comm, max_left_comm]

/-- The running-maximum subtraction computes exactly the largest
peak-to-trough decline. -/
theorem maxDrawdownCum_eq_maxDecline (l : List ℚ) : maxDrawdownCum l = maxDecline l := by
  cases l with
  | nil => rfl
  | cons x xs =>
    simp only [maxDrawdownCum, runningMax, maxDecline]
    rw [zip_runMax_foldr (x :: xs) x]
    simp only [declines, List.map_cons, foldr_max_append]
    rw [← max_assoc, max_self]

/-- Claim C8: over every trade P&L series, the reported max drawdown
equals the largest peak-to-trough decline of the cumulative P&L series,
and on cumulative P&L `[100, 250, 100, 300]` it is `150`. -/
theorem c8_max_drawdown :
    (∀ pnls : List ℚ, calculate_max_drawdown pnls = maxDecline (cumsum pnls)) ∧
    maxDrawdownCum [100, 250, 100, 300] = 150 ∧
    calculate_max_drawdown [100, 150, -150, 200] = 150 := by
  refine ⟨fun pnls => maxDrawdownCum_eq_maxDecline (cumsum pnls), ?_, ?_⟩
  · simp only [maxDrawdownCum, runningMax, runMaxFrom, List.zipWith_cons_cons]
    norm_num [max_def]
  · have hc : cumsum [100, 150, -150, 200] = [100, 250, 100, 300] := by
      norm_num [cumsum, cumsumFrom]
    rw [calculate_max_drawdown, hc]
    simp only [maxDrawdownCum, runningMax, runMaxFrom, List.zipWith_cons_cons]
    norm_num [max_def]

/-- A Python exception escaping a CLI handler coroutine. -/
inductive PyExc where
  | keyboardInterrupt
  | systemExit (code : ℕ)
  | exception (msg : String)
  deriving DecidableEq

/-- Result of running one async handler to completion: a normal return or
an escaping exception. -/
inductive HandlerRun where
  | ret
  | raised (e : PyExc)
  deriving DecidableEq

/-- Embedding of `InsiderMirrorCLI.handle_data` on the fetch stage result
(`cli.py` lines 113–123): success prints a summary and returns; an
error-status result prints the error and calls `sys.exit(1)`. -/
def handle_data (result : StageResult (List PyDict)) : HandlerRun :=
  match result with
  | .success _ => .ret
  | .error _ => .raised (.systemExit 1)

/-- Embedding of `InsiderMirrorCLI.handle_analysis` (`cli.py` lines 129–154): an error
from either the data stage or the analysis stage prints and calls
`sys.exit(1)`; both succeeding prints the results and returns. -/
def handle_analysis (dataRes : StageResult (List PyDict))
    (anaRes : StageResult (List Trade)) : HandlerRun :=
  match dataRes with
  | .error _ => .raised (.systemExit 1)
  | .success _ =>
    match anaRes with
    | .error _ => .raised (.systemExit 1)
    | .success _ => .ret

/-- The inner `try`/`except` of `InsiderMirrorCLI.execute`
(`cli.py` lines 257–274): `KeyboardInterrupt` prints a notice and
returns; any other `Exception` prints the error and calls
`sys.exit(1)`, which raises `SystemExit(1)`; `SystemExit` passes
through uncaught. -/
def inner_dispatch (run : HandlerRun) : HandlerRun :=
  match run with
  | .raised .keyboardInterrupt => .ret
  | .raised (.exception _) => .raised (.systemExit 1)
  | r => r

/-- Embedding of `InsiderMirrorCLI.execute` end to end (`cli.py` lines 248–280): the
process exit code after the inner dispatch and the outer
`except SystemExit` handler, which re-exits with 1 on any nonzero code
and re-raises (exiting 0) otherwise; a plain return exits 0. -/
def cli_execute (run : HandlerRun) : ℕ :=
  match inner_dispatch run with
  | .ret => 0
  | .raised (.systemExit c) => if c = 0 then 0 else 1
  | .raised _ => 1

/-- Claim C9: a CLI command exits 0 on success and 1 on any unhandled
error — an error-status stage result makes the handler exit 1 after
printing, and an exception escaping command handling exits 1; success
paths (including both stages succeeding) exit 0. -/
theorem c9_cli_exit_codes :
    cli_execute .ret = 0 ∧
    (∀ ds : List PyDict, cli_execute (handle_data (.success ds)) = 0) ∧
    (∀ msg, cli_execute (handle_data (.error msg)) = 1) ∧
    (∀ (ds : List PyDict) (ts : List Trade),
      cli_execute (handle_analysis (.success ds) (.success ts)) = 0) ∧
    (∀ ds msg, cli_execute (handle_analysis (.success ds) (.error msg)) = 1) ∧
    (∀ msg anaRes, cli_execute (handle_analysis (.error msg) anaRes) = 1) ∧
    (∀ msg, cli_execute (.raised (.exception msg)) = 1) :=
  ⟨rfl, fun _ => rfl, fun _ => rfl, fun _ _ => rfl, fun _ _ => rfl, fun _ _ => rfl,
   fun _ => rfl⟩

end InsiderMirror
